import Mathlib

/-!
Todo resolvers of graphql-react-go-fullstack.

A shallow embedding of the resolvers in `backend/graph/todo.resolvers.go` (the
resolver set wired by `cmd/server/main.go`) and of the two resolvers of
`backend/graph/resolvers/todo.resolvers.go` that differ from them, together with
the library calls they rely on: `strconv.Atoi`, `strconv.Itoa` and the gorm
statements issued against the SQLite table `todos`.

Resolvers are state-passing functions: they take the database and return the Go
result pair together with the database after the call.
-/

set_option autoImplicit false

deriving instance DecidableEq for Except

/-- A `time.Time` value, represented by the text the SQLite driver stores for
it in a `datetime` column, of layout `2006-01-02 15:04:05.999999999-07:00`. -/
abbrev Time := String

/-- The zero `time.Time`. -/
def zeroTime : Time := "0001-01-01 00:00:00+00:00"

/-! ## strconv -/

namespace strconv

/-- The two failures `strconv` reports: `ErrSyntax` and `ErrRange`. -/
inductive Failure where
  | invalidSyntax
  | outOfRange
deriving DecidableEq, Repr

/-- A `*strconv.NumError`: the function, the offending input, the failure. -/
structure NumError where
  Func : String
  Num : String
  Err : Failure
deriving DecidableEq, Repr

/-- Largest value of Go's `int` on a 64-bit target. -/
def maxInt : Int := 2 ^ 63 - 1

/-- Smallest value of Go's `int` on a 64-bit target. -/
def minInt : Int := -(2 ^ 63)

/-- Largest `uint64`. -/
def maxUint64 : Nat := 2 ^ 64 - 1

/-- Value of a decimal digit character, `none` for any other character. -/
def digitVal (c : Char) : Option Nat :=
  if 48 ≤ c.toNat ∧ c.toNat ≤ 57 then some (c.toNat - 48) else none

/-- The base-10 loop of `ParseUint` at bit size 64: each character must be a
decimal digit (else a syntax failure); the accumulator may not reach the cutoff
`maxUint64 / 10 + 1` before a multiplication nor exceed `maxUint64` after the
addition (else a range failure). -/
def parseUintLoop : List Char → Nat → Except Failure Nat
  | [], n => .ok n
  | c :: cs, n =>
    match digitVal c with
    | none => .error .invalidSyntax
    | some d =>
      if n ≥ maxUint64 / 10 + 1 then .error .outOfRange
      else if n * 10 + d > maxUint64 then .error .outOfRange
      else parseUintLoop cs (n * 10 + d)

/-- The call `ParseInt(s, 10, 0)` on the characters of `s`: empty input is a
syntax failure, one leading sign is stripped, the magnitude is parsed by
`ParseUint` and must fit the signed 64-bit range. -/
def parseInt (cs : List Char) : Except Failure Int :=
  match cs with
  | [] => .error .invalidSyntax
  | c :: rest =>
    let neg := c == '-'
    let ds := if c == '+' ∨ c == '-' then rest else cs
    match ds with
    | [] => .error .invalidSyntax
    | _ :: _ =>
      match parseUintLoop ds 0 with
      | .error e => .error e
      | .ok un =>
        if !neg ∧ un ≥ 2 ^ 63 then .error .outOfRange
        else if neg ∧ un > 2 ^ 63 then .error .outOfRange
        else .ok (if neg then -(un : Int) else (un : Int))

/-- The function `strconv.Atoi`: an optionally signed run of decimal digits
whose value fits `int`; the short-input fast path of the library returns the
same results as `ParseInt(s, 10, 0)`. -/
def Atoi (s : String) : Except NumError Int :=
  match parseInt s.toList with
  | .ok n => .ok n
  | .error e => .error { Func := "Atoi", Num := s, Err := e }

/-- The character of a decimal digit. -/
def digitChar (d : Nat) : Char := Char.ofNat (48 + d)

/-- The digit loop of `formatBits` in base 10: digits are produced from the
least significant one and written right to left into the buffer `acc`. The
fuel is the buffer size. -/
def formatBits : Nat → Nat → List Char → List Char
  | 0, _, acc => acc
  | fuel + 1, u, acc =>
    if u < 10 then digitChar u :: acc
    else formatBits fuel (u / 10) (digitChar (u % 10) :: acc)

/-- The function `strconv.Itoa`, that is `FormatInt(int64(i), 10)`: canonical
decimal digits, preceded by `-` for a negative value. The buffer of the library
has 65 bytes. -/
def Itoa (i : Int) : String :=
  if i < 0 then String.mk ('-' :: formatBits 65 i.natAbs [])
  else String.mk (formatBits 65 i.natAbs [])

end strconv

/-! ## Data model -/

namespace models

/-- The struct `models.Todo` of `internal/models/todo.go`: one row of the table
`todos`. `DeletedAt` is the soft-delete marker, `none` for a live row. -/
structure Todo where
  ID : Int
  Title : String
  Description : String
  Completed : Bool
  CreatedAt : Time
  UpdatedAt : Time
  DeletedAt : Option Time
deriving DecidableEq, Repr

end models

namespace model

/-- Modelled from the spec: the generated GraphQL type `model.Todo` of package
`graph/model`, which is not among the sources; its fields are the ones the
resolvers assign, `Description` being a `*string`. -/
structure Todo where
  ID : String
  Title : String
  Description : Option String
  Completed : Bool
  CreatedAt : Time
  UpdatedAt : Time
deriving DecidableEq, Repr

/-- Modelled from the spec: the generated input type `model.TodoFilter` of
package `graph/model`; both fields are pointers, `none` when absent. -/
structure TodoFilter where
  Completed : Option Bool
  Search : Option String
deriving DecidableEq, Repr

/-- Modelled from the spec: the generated input type `model.CreateTodoInput` of
package `graph/model`: a required title and an optional description. -/
structure CreateTodoInput where
  Title : String
  Description : Option String
deriving DecidableEq, Repr

/-- Modelled from the spec: the generated input type `model.UpdateTodoInput` of
package `graph/model`; each of the three fields is a pointer, `none` when
absent. -/
structure UpdateTodoInput where
  Title : Option String
  Description : Option String
  Completed : Option Bool
deriving DecidableEq, Repr

end model

/-! ## SQLite and gorm -/

namespace sqlite

/-- The comparison at the heart of SQLite's `LIKE` without an `ESCAPE` clause,
pattern first: `%` matches any run of characters, `_` matches exactly one
character, any other character matches itself, ASCII letters without regard to
case. -/
def likeChars : List Char → List Char → Bool
  | [], t => t.isEmpty
  | c :: p, t =>
    if c = '%' then t.tails.any (fun u => likeChars p u)
    else
      match t with
      | [] => false
      | d :: u => (decide (c = '_') || decide (c.toLower = d.toLower)) && likeChars p u

/-- The C string SQLite's `LIKE` reads from a `TEXT` value: the characters
before the first NUL. -/
def cstr (cs : List Char) : List Char := cs.takeWhile (fun c => c ≠ Char.ofNat 0)

/-- The limit `SQLITE_MAX_LIKE_PATTERN_LENGTH`, in bytes. -/
def maxLikePatternLength : Nat := 50000

/-- The SQL function `LIKE` of SQLite, pattern first. A pattern of more than
`maxLikePatternLength` bytes is refused with the error
`LIKE or GLOB pattern too complex` (`none`); otherwise pattern and text are
compared as C strings, each read up to its first NUL. -/
def like (pattern text : String) : Option Bool :=
  if pattern.utf8ByteSize > maxLikePatternLength then none
  else some (likeChars (cstr pattern.toList) (cstr text.toList))

/-- The order of two `TEXT` values under the collation `BINARY`: bytes are
compared from the left, a proper beginning being less than the whole; on
UTF-8 text that is the order of the code points. -/
def textLt : List Char → List Char → Bool
  | _, [] => false
  | [], _ :: _ => true
  | a :: as, b :: bs =>
    if a.toNat < b.toNat then true
    else if b.toNat < a.toNat then false
    else textLt as bs

end sqlite

namespace gorm

/-- The errors a gorm statement reports: the two sentinel errors the resolvers
can meet and any error raised by the database driver. -/
inductive Error where
  | ErrRecordNotFound
  | ErrMissingWhereClause
  | driver (msg : String)
deriving DecidableEq, Repr

/-- A value stored in a `map[string]interface{}` of column updates. -/
inductive Value where
  | str (s : String)
  | bool (b : Bool)
deriving DecidableEq, Repr

/-- The two conditions the resolvers pass to `Where`:
`"completed = ?"` and `"title LIKE ? OR description LIKE ?"`. -/
inductive Cond where
  | completedEq (b : Bool)
  | titleLikeOrDescriptionLike (p q : String)
deriving DecidableEq, Repr

/-- The statements sent to the database, as recorded in its journal. -/
inductive Stmt where
  | selectAll (conds : List Cond)
  | selectFirst (id : Int)
  | selectCount
  | insert
  | update (id : Int)
  | softDelete (id : Int)
deriving DecidableEq, Repr

/-- Whether a statement writes to the table. -/
def Stmt.isWrite : Stmt → Bool
  | .selectAll _ => false
  | .selectFirst _ => false
  | .selectCount => false
  | .insert => true
  | .update _ => true
  | .softDelete _ => true

/-- The database behind a `*gorm.DB`: the rows of `todos` in insertion order,
the last value of the auto-increment sequence, the reading of the clock and
the readings it will give to the statements to come (the last one staying once
the list is used up), the journal of the statements received, and for each
statement still to come whether the driver will fail it (`some msg`) or run it
(`none`, also once the list is used up). -/
structure DB where
  rows : List models.Todo
  seq : Nat
  now : Time
  ticks : List Time
  faults : List (Option String)
  journal : List Stmt
deriving DecidableEq, Repr

/-- A chain of `Where` and `Order` calls not yet executed. -/
structure Query where
  conds : List Cond
  orderCreatedAtDesc : Bool
deriving DecidableEq, Repr

/-- The query `r.DB` starts from: no condition, no order. -/
def Query.start : Query := { conds := [], orderCreatedAtDesc := false }

/-- The call `query.Where(cond, args...)`: conditions are joined by `AND`, a
condition containing `OR` being put in parentheses. -/
def Query.Where (q : Query) (c : Cond) : Query := { q with conds := q.conds ++ [c] }

/-- The call `query.Order("created_at DESC")`. -/
def Query.Order (q : Query) : Query := { q with orderCreatedAtDesc := true }

/-- Truth of a condition on a row, `none` when evaluating it raises an error;
the right side of `OR` is evaluated only when the left side is false. -/
def Cond.holds : Cond → models.Todo → Option Bool
  | .completedEq b, t => some (t.Completed == b)
  | .titleLikeOrDescriptionLike p q, t =>
    match sqlite.like p t.Title with
    | none => none
    | some true => some true
    | some false => sqlite.like q t.Description

/-- Truth of the conjunction of the conditions on a row: they are evaluated
from the left and the first one that is false settles the row. -/
def verdict : List Cond → models.Todo → Option Bool
  | [], _ => some true
  | c :: cs, t =>
    match c.holds t with
    | none => none
    | some false => some false
    | some true => verdict cs t

/-- A row is live when its soft-delete marker is unset; gorm adds
`deleted_at IS NULL` to every statement on a model with a `gorm.DeletedAt`. -/
def live (t : models.Todo) : Bool := t.DeletedAt.isNone

/-- Sending a statement: the clock takes its next reading, the statement is
journalled and the driver's verdict for it is taken from `faults`. -/
def DB.exec (db : DB) (s : Stmt) : Option String × DB :=
  (db.faults.head?.join,
   { db with now := db.ticks.head?.getD db.now, ticks := db.ticks.tail,
             faults := db.faults.tail, journal := db.journal ++ [s] })

/-- The relation of `ORDER BY created_at DESC`: the column holds text, and the
row `a` may stand before the row `b` when the text of `a` is not less than the
text of `b`. -/
def createdAtDesc (a b : models.Todo) : Prop :=
  sqlite.textLt a.CreatedAt.toList b.CreatedAt.toList = false

instance : DecidableRel createdAtDesc := fun a b =>
  decEq (sqlite.textLt a.CreatedAt.toList b.CreatedAt.toList) false

/-- The call `query.Find(&dst)`: the live rows are found through the index on
`deleted_at` and the conditions are evaluated on each of them; an error raised
on a row fails the statement, otherwise the rows on which all conditions hold
are returned, sorted when an order was given, rows of equal `created_at`
staying in table order. -/
def DB.Find (db : DB) (q : Query) : Except Error (List models.Todo) × DB :=
  let (f, db1) := db.exec (.selectAll q.conds)
  match f with
  | some msg => (.error (.driver msg), db1)
  | none =>
    let candidates := db1.rows.filter live
    if candidates.any (fun t => (verdict q.conds t).isNone) then
      (.error (.driver "LIKE or GLOB pattern too complex"), db1)
    else
      let hits := candidates.filter (fun t => verdict q.conds t == some true)
      (.ok (if q.orderCreatedAtDesc then hits.insertionSort createdAtDesc else hits), db1)

/-- The live row with primary key `id`, if there is one. -/
def DB.lookup (db : DB) (id : Int) : Option models.Todo :=
  db.rows.find? (fun t => decide (t.ID = id) && live t)

/-- The driver runs the next `k` statements without failing any. -/
def DB.healthy (db : DB) (k : Nat) : Prop := ∀ f ∈ db.faults.take k, f = none

instance (db : DB) (k : Nat) : Decidable (db.healthy k) := by
  unfold DB.healthy
  infer_instance

/-- The call `db.First(&dst, id)`: the live row with primary key `id`, or
`ErrRecordNotFound`. -/
def DB.First (db : DB) (id : Int) : Except Error models.Todo × DB :=
  let (f, db1) := db.exec (.selectFirst id)
  match f with
  | some msg => (.error (.driver msg), db1)
  | none =>
    match db1.lookup id with
    | none => (.error .ErrRecordNotFound, db1)
    | some t => (.ok t, db1)

/-- The call `db.Model(&models.Todo{}).Count(&count)`: the number of live
rows. -/
def DB.Count (db : DB) : Except Error Int × DB :=
  let (f, db1) := db.exec .selectCount
  match f with
  | some msg => (.error (.driver msg), db1)
  | none => (.ok ((db1.rows.filter live).length : Int), db1)

/-- The call `db.Create(&v)`: a zero primary key is replaced by the next value
of the sequence, zero timestamps by the current time, and the row is appended.
The key is a signed 64-bit integer: once the sequence has reached the largest
one, SQLite refuses the insert as `SQLITE_FULL`; a primary key already in the
table is refused by the driver as well. The second component is `v` as gorm
leaves it. -/
def DB.Create (db : DB) (v : models.Todo) : Option Error × models.Todo × DB :=
  let (f, db1) := db.exec .insert
  let v1 := { v with CreatedAt := if v.CreatedAt = zeroTime then db1.now else v.CreatedAt,
                     UpdatedAt := if v.UpdatedAt = zeroTime then db1.now else v.UpdatedAt }
  match f with
  | some msg => (some (.driver msg), v1, db1)
  | none =>
    let id : Int := if v.ID = 0 then (db1.seq : Int) + 1 else v.ID
    if v.ID = 0 ∧ (db1.seq : Int) ≥ strconv.maxInt then
      (some (.driver "database or disk is full"), v1, db1)
    else if db1.rows.any (fun t => decide (t.ID = id)) then
      (some (.driver "UNIQUE constraint failed: todos.id"), v1, db1)
    else
      let v2 := { v1 with ID := id }
      (none, v2, { db1 with rows := db1.rows ++ [v2], seq := max db1.seq id.toNat })

/-- Assignment of one entry of an update map to the field of that column. -/
def assign (t : models.Todo) (kv : String × Value) : models.Todo :=
  match kv with
  | ("title", .str s) => { t with Title := s }
  | ("description", .str s) => { t with Description := s }
  | ("completed", .bool b) => { t with Completed := b }
  | _ => t

/-- The call `db.Model(&v).Updates(updates)` with a map: gorm's update callback
sets every entry of the map, and the current time as `UpdatedAt`, on the fields
of the model value `v` itself (`field.Set` on the statement's model), then sets
the same columns on the live row whose primary key is `v.ID`. A zero primary
key leaves the statement without a condition and gorm refuses it with
`ErrMissingWhereClause` before anything is sent. The second component is `v`
as gorm leaves it. -/
def DB.Updates (db : DB) (v : models.Todo) (updates : List (String × Value)) :
    Option Error × models.Todo × DB :=
  if v.ID = 0 then
    (some .ErrMissingWhereClause, { updates.foldl assign v with UpdatedAt := db.now }, db)
  else
    let (f, db1) := db.exec (.update v.ID)
    let v1 := { updates.foldl assign v with UpdatedAt := db1.now }
    match f with
    | some msg => (some (.driver msg), v1, db1)
    | none =>
      (none, v1,
       { db1 with rows := db1.rows.map (fun t =>
           if t.ID = v.ID ∧ live t then { updates.foldl assign t with UpdatedAt := db1.now }
           else t) })

/-- The call `db.Save(&v)`: with a zero primary key it is `Create`; otherwise
every column of the live row with that primary key is set from `v`, whose
`UpdatedAt` becomes the current time. (Recent gorm releases retry as an upsert
when no row was affected; the resolvers only save a row they have just read,
so that retry is not part of this model.) -/
def DB.Save (db : DB) (v : models.Todo) : Option Error × models.Todo × DB :=
  if v.ID = 0 then db.Create v
  else
    let (f, db1) := db.exec (.update v.ID)
    let v1 := { v with UpdatedAt := db1.now }
    match f with
    | some msg => (some (.driver msg), v1, db1)
    | none =>
      (none, v1, { db1 with rows := db1.rows.map (fun t => if t.ID = v.ID ∧ live t then v1 else t) })

/-- The call `db.Delete(&models.Todo{}, id)` on a soft-delete model: the
marker of the live row with primary key `id` is set to the current time. The
second component is `RowsAffected`. -/
def DB.Delete (db : DB) (id : Int) : Option Error × Int × DB :=
  let (f, db1) := db.exec (.softDelete id)
  match f with
  | some msg => (some (.driver msg), 0, db1)
  | none =>
    ((none : Option Error),
     ((db1.rows.filter (fun t => decide (t.ID = id) && live t)).length : Int),
     { db1 with rows := db1.rows.map (fun t =>
         if t.ID = id ∧ live t then { t with DeletedAt := some db1.now } else t) })

end gorm

/-! ## The resolvers of `backend/graph/todo.resolvers.go` -/

namespace graph

/-- The error values the resolvers return: the three built with `fmt.Errorf`
(`"invalid todo id: %v"`, `"todo not found"`, `"no fields to update"`) and a
gorm error handed back as it is. -/
inductive ResolverError where
  | invalidTodoID (err : strconv.NumError)
  | todoNotFound
  | noFieldsToUpdate
  | storage (err : gorm.Error)
deriving DecidableEq, Repr

/-- The error kinds of the specification. -/
inductive ErrorKind where
  | InvalidArgument
  | NotFound
  | StorageFailure
deriving DecidableEq, Repr

/-- Kind of each error value: a malformed identifier and an empty update are
invalid arguments, `"todo not found"` is not-found, a gorm error handed back
is a storage failure. -/
def ResolverError.kind : ResolverError → ErrorKind
  | .invalidTodoID _ => .InvalidArgument
  | .todoNotFound => .NotFound
  | .noFieldsToUpdate => .InvalidArgument
  | .storage _ => .StorageFailure

/-- The struct `Resolver` of `graph/resolver.go`. -/
structure Resolver where
  DB : gorm.DB
deriving DecidableEq, Repr

/-- The `&model.Todo{...}` literal every resolver builds from a database row. -/
def toModel (t : models.Todo) : model.Todo :=
  { ID := strconv.Itoa t.ID
    Title := t.Title
    Description := some t.Description
    Completed := t.Completed
    CreatedAt := t.CreatedAt
    UpdatedAt := t.UpdatedAt }

/-- The resolver `Todos`. -/
def Resolver.Todos (r : Resolver) (filter : Option model.TodoFilter) :
    Except ResolverError (List model.Todo) × Resolver :=
  let query := gorm.Query.start
  let query :=
    match filter with
    | none => query
    | some filter =>
      let query :=
        match filter.Completed with
        | some completed => query.Where (.completedEq completed)
        | none => query
      match filter.Search with
      | some s =>
        if s ≠ "" then
          let search := "%" ++ s ++ "%"
          query.Where (.titleLikeOrDescriptionLike search search)
        else query
      | none => query
  match r.DB.Find query.Order with
  | (.error err, db) => (.error (.storage err), { DB := db })
  | (.ok dbTodos, db) => (.ok (dbTodos.map toModel), { DB := db })

/-- The resolver `Todo`. -/
def Resolver.Todo (r : Resolver) (id : String) : Except ResolverError model.Todo × Resolver :=
  match strconv.Atoi id with
  | .error err => (.error (.invalidTodoID err), r)
  | .ok idInt =>
    match r.DB.First idInt with
    | (.error err, db) =>
      if err = gorm.Error.ErrRecordNotFound then (.error .todoNotFound, { DB := db })
      else (.error (.storage err), { DB := db })
    | (.ok dbTodo, db) => (.ok (toModel dbTodo), { DB := db })

/-- The resolver `TodoCount`. -/
def Resolver.TodoCount (r : Resolver) : Except ResolverError Int × Resolver :=
  match r.DB.Count with
  | (.error err, db) => (.error (.storage err), { DB := db })
  | (.ok count, db) => (.ok count, { DB := db })

/-- The resolver `CreateTodo`. -/
def Resolver.CreateTodo (r : Resolver) (input : model.CreateTodoInput) :
    Except ResolverError model.Todo × Resolver :=
  let dbTodo : models.Todo :=
    { ID := 0, Title := input.Title, Description := "", Completed := false,
      CreatedAt := zeroTime, UpdatedAt := zeroTime, DeletedAt := none }
  let dbTodo :=
    match input.Description with
    | some d => { dbTodo with Description := d }
    | none => dbTodo
  match r.DB.Create dbTodo with
  | (some err, _, db) => (.error (.storage err), { DB := db })
  | (none, dbTodo, db) => (.ok (toModel dbTodo), { DB := db })

/-- The map `updates` that `UpdateTodo` fills from the fields present in the
input. -/
def updatesOf (input : model.UpdateTodoInput) : List (String × gorm.Value) :=
  let updates : List (String × gorm.Value) := []
  let updates :=
    match input.Title with
    | some t => updates ++ [("title", .str t)]
    | none => updates
  let updates :=
    match input.Description with
    | some d => updates ++ [("description", .str d)]
    | none => updates
  match input.Completed with
  | some c => updates ++ [("completed", .bool c)]
  | none => updates

/-- The resolver `UpdateTodo`. -/
def Resolver.UpdateTodo (r : Resolver) (id : String) (input : model.UpdateTodoInput) :
    Except ResolverError model.Todo × Resolver :=
  match strconv.Atoi id with
  | .error err => (.error (.invalidTodoID err), r)
  | .ok idInt =>
    match r.DB.First idInt with
    | (.error err, db) =>
      if err = gorm.Error.ErrRecordNotFound then (.error .todoNotFound, { DB := db })
      else (.error (.storage err), { DB := db })
    | (.ok dbTodo, db) =>
      let updates := updatesOf input
      if updates.length = 0 then (.error .noFieldsToUpdate, { DB := db })
      else
        match db.Updates dbTodo updates with
        | (some err, _, db) => (.error (.storage err), { DB := db })
        | (none, dbTodo, db) => (.ok (toModel dbTodo), { DB := db })

/-- The resolver `DeleteTodo`. -/
def Resolver.DeleteTodo (r : Resolver) (id : String) : Except ResolverError Bool × Resolver :=
  match strconv.Atoi id with
  | .error err => (.error (.invalidTodoID err), r)
  | .ok idInt =>
    match r.DB.Delete idInt with
    | (some err, _, db) => (.error (.storage err), { DB := db })
    | (none, rowsAffected, db) => (.ok (decide (rowsAffected > 0)), { DB := db })

/-- The resolver `ToggleTodo`. -/
def Resolver.ToggleTodo (r : Resolver) (id : String) : Except ResolverError model.Todo × Resolver :=
  match strconv.Atoi id with
  | .error err => (.error (.invalidTodoID err), r)
  | .ok idInt =>
    match r.DB.First idInt with
    | (.error err, db) =>
      if err = gorm.Error.ErrRecordNotFound then (.error .todoNotFound, { DB := db })
      else (.error (.storage err), { DB := db })
    | (.ok dbTodo, db) =>
      let dbTodo := { dbTodo with Completed := !dbTodo.Completed }
      match db.Save dbTodo with
      | (some err, _, db) => (.error (.storage err), { DB := db })
      | (none, dbTodo, db) => (.ok (toModel dbTodo), { DB := db })

end graph

/-! ## The resolvers of `backend/graph/resolvers/todo.resolvers.go`

`Todos`, `Todo`, `TodoCount`, `CreateTodo` and `DeleteTodo` of that file read as
their namesakes above (`Todo` tests `result.RecordNotFound()` where the other
tests `errors.Is(result.Error, gorm.ErrRecordNotFound)`); `UpdateTodo` and
`ToggleTodo` differ in what they do with a failed lookup. -/

namespace resolvers

open graph

/-- The resolver `mutationResolver.UpdateTodo`: every error of the lookup is
answered with `"todo not found"`. -/
def mutationResolver.UpdateTodo (r : Resolver) (id : String) (input : model.UpdateTodoInput) :
    Except ResolverError model.Todo × Resolver :=
  match strconv.Atoi id with
  | .error err => (.error (.invalidTodoID err), r)
  | .ok idInt =>
    match r.DB.First idInt with
    | (.error _, db) => (.error .todoNotFound, { DB := db })
    | (.ok dbTodo, db) =>
      let updates := updatesOf input
      if updates.length = 0 then (.error .noFieldsToUpdate, { DB := db })
      else
        match db.Updates dbTodo updates with
        | (some err, _, db) => (.error (.storage err), { DB := db })
        | (none, dbTodo, db) => (.ok (toModel dbTodo), { DB := db })

/-- The resolver `mutationResolver.ToggleTodo`: every error of the lookup is
answered with `"todo not found"`. -/
def mutationResolver.ToggleTodo (r : Resolver) (id : String) :
    Except ResolverError model.Todo × Resolver :=
  match strconv.Atoi id with
  | .error err => (.error (.invalidTodoID err), r)
  | .ok idInt =>
    match r.DB.First idInt with
    | (.error _, db) => (.error .todoNotFound, { DB := db })
    | (.ok dbTodo, db) =>
      let dbTodo := { dbTodo with Completed := !dbTodo.Completed }
      match db.Save dbTodo with
      | (some err, _, db) => (.error (.storage err), { DB := db })
      | (none, dbTodo, db) => (.ok (toModel dbTodo), { DB := db })

end resolvers

/-! ## Sample databases -/

namespace sample

/-- A live, open todo. -/
def rowA : models.Todo :=
  { ID := 1, Title := "a", Description := "", Completed := false,
    CreatedAt := "2024-03-01 09:00:00+00:00", UpdatedAt := "2024-03-01 09:00:00+00:00",
    DeletedAt := none }

/-- A live, completed todo. -/
def rowB : models.Todo :=
  { ID := 2, Title := "Foo bar", Description := "x", Completed := true,
    CreatedAt := "2024-03-02 09:00:00+00:00", UpdatedAt := "2024-03-02 09:00:00+00:00",
    DeletedAt := none }

/-- A soft-deleted todo. -/
def rowC : models.Todo :=
  { ID := 3, Title := "zzz", Description := "gone", Completed := true,
    CreatedAt := "2024-03-03 09:00:00+00:00", UpdatedAt := "2024-03-03 09:00:00+00:00",
    DeletedAt := some "2024-03-04 09:00:00+00:00" }

/-- A live, open todo whose title is `a`, NUL, `b`. -/
def rowN : models.Todo :=
  { ID := 1, Title := String.mk ['a', Char.ofNat 0, 'b'], Description := "", Completed := false,
    CreatedAt := "2024-03-01 09:00:00+00:00", UpdatedAt := "2024-03-01 09:00:00+00:00",
    DeletedAt := none }

/-- A resolver on an empty table. -/
def empty : graph.Resolver :=
  { DB := { rows := [], seq := 0, now := "2024-03-05 12:00:00+00:00", ticks := [],
            faults := [], journal := [] } }

/-- A resolver on a table holding `rowA` only. -/
def single : graph.Resolver :=
  { DB := { rows := [rowA], seq := 1, now := "2024-03-05 12:00:00+00:00", ticks := [],
            faults := [], journal := [] } }

/-- A resolver on a table holding `rowN` only. -/
def withNul : graph.Resolver :=
  { DB := { rows := [rowN], seq := 1, now := "2024-03-05 12:00:00+00:00", ticks := [],
            faults := [], journal := [] } }

/-- A resolver on a table holding the three sample rows. -/
def three : graph.Resolver :=
  { DB := { rows := [rowA, rowB, rowC], seq := 3, now := "2024-03-05 12:00:00+00:00",
            ticks := ["2024-03-05 12:00:01+00:00", "2024-03-05 12:00:02+00:00",
                      "2024-03-05 12:00:03+00:00", "2024-03-05 12:00:04+00:00"],
            faults := [], journal := [] } }

/-- The resolver `three` behind a driver that fails the next statement. -/
def locked : graph.Resolver :=
  { DB := { three.DB with faults := [some "database is locked"] } }

end sample

/-! ## Identifier codec -/

namespace strconv

theorem digitVal_digitChar (d : Nat) (h : d < 10) : digitVal (digitChar d) = some d := by
  interval_cases d <;> decide

theorem digitChar_not_sign (d : Nat) (h : d < 10) :
    (digitChar d == '+') = false ∧ (digitChar d == '-') = false := by
  interval_cases d <;> decide

theorem parseUintLoop_digit (d u : Nat) (acc : List Char) (hd : d < 10)
    (hu : u * 10 + d ≤ maxUint64) :
    parseUintLoop (digitChar d :: acc) u = parseUintLoop acc (u * 10 + d) := by
  have h1 : ¬ (u ≥ maxUint64 / 10 + 1) := by
    simp only [maxUint64] at hu ⊢
    omega
  have h2 : ¬ (u * 10 + d > maxUint64) := by omega
  simp [parseUintLoop, digitVal_digitChar d hd, h1, h2]

theorem parseUintLoop_formatBits (fuel : Nat) :
    ∀ (u : Nat) (acc : List Char), u < 10 ^ fuel → u ≤ maxUint64 →
      parseUintLoop (formatBits fuel u acc) 0 = parseUintLoop acc u := by
  induction fuel with
  | zero =>
    intro u acc h _
    have : u = 0 := by simpa using h
    subst this
    rfl
  | succ fuel ih =>
    intro u acc h hmax
    unfold formatBits
    by_cases hu : u < 10
    · rw [if_pos hu, parseUintLoop_digit u 0 acc hu (by omega)]
      simp
    · rw [if_neg hu, ih (u / 10) _ (by rw [pow_succ] at h; omega) (by omega),
        parseUintLoop_digit (u % 10) (u / 10) acc (by omega) (by omega)]
      congr 1
      omega

theorem formatBits_head (fuel : Nat) :
    ∀ (u : Nat) (acc : List Char),
      ∃ d rest, d < 10 ∧ formatBits (fuel + 1) u acc = digitChar d :: rest := by
  induction fuel with
  | zero =>
    intro u acc
    by_cases hu : u < 10
    · exact ⟨u, acc, hu, by simp [formatBits, hu]⟩
    · exact ⟨u % 10, acc, by omega, by simp [formatBits, hu]⟩
  | succ fuel ih =>
    intro u acc
    by_cases hu : u < 10
    · exact ⟨u, acc, hu, by rw [formatBits, if_pos hu]⟩
    · obtain ⟨d, rest, hd, h⟩ := ih (u / 10) (digitChar (u % 10) :: acc)
      exact ⟨d, rest, hd, by rw [formatBits, if_neg hu, h]⟩

/-- Decoding the canonical decimal text of any `int` gives the `int` back. -/
theorem Atoi_Itoa (n : Int) (hlo : minInt ≤ n) (hhi : n ≤ maxInt) : Atoi (Itoa n) = .ok n := by
  simp only [minInt, maxInt] at hlo hhi
  obtain ⟨d, rest, hd, hfmt⟩ := formatBits_head 64 n.natAbs []
  have hparse : parseUintLoop (digitChar d :: rest) 0 = .ok n.natAbs := by
    rw [← hfmt, parseUintLoop_formatBits 65 n.natAbs [] (by norm_num; omega)
      (by simp only [maxUint64]; omega)]
    rfl
  obtain ⟨hplus, hminus⟩ := digitChar_not_sign d hd
  by_cases hneg : n < 0
  · have h1 : ¬ (9223372036854775808 < n.natAbs) := by omega
    have h2 : |n| = -n := abs_of_neg hneg
    simp [Atoi, Itoa, hneg, parseInt, hfmt, hparse, h1, h2]
  · have h1 : ¬ (9223372036854775808 ≤ n.natAbs) := by omega
    simp [Atoi, Itoa, hneg, parseInt, hfmt, hparse, hplus, hminus, h1]
    omega

end strconv

/-- C10: for every valid identifier `n`, a positive integer that fits Go's
`int`, decoding the text that `strconv.Itoa` writes on response records with
`strconv.Atoi`, the parse applied to every id argument, succeeds and yields
`n`. -/
theorem decode_encode_roundtrip (n : Int) (hpos : 0 < n) (hfit : n ≤ strconv.maxInt) :
    strconv.Atoi (strconv.Itoa n) = .ok n :=
  strconv.Atoi_Itoa n (by simp only [strconv.minInt]; omega) hfit

theorem decode_encode_roundtrip_witness :
    (0 : Int) < 2024 ∧ (2024 : Int) ≤ strconv.maxInt ∧
      strconv.Itoa 2024 = "2024" ∧ strconv.Atoi (strconv.Itoa 2024) = .ok 2024 :=
  ⟨by decide, by decide, by decide, decode_encode_roundtrip 2024 (by decide) (by decide)⟩

/-! ## Statements and the driver -/

namespace gorm

@[simp] theorem exec_rows (db : DB) (s : Stmt) : (db.exec s).2.rows = db.rows := rfl

@[simp] theorem exec_journal (db : DB) (s : Stmt) :
    (db.exec s).2.journal = db.journal ++ [s] := rfl

@[simp] theorem exec_lookup (db : DB) (s : Stmt) (id : Int) :
    (db.exec s).2.lookup id = db.lookup id := rfl

theorem exec_of_healthy (db : DB) (s : Stmt) (k : Nat) (h : db.healthy (k + 1)) :
    (db.exec s).1 = none ∧ (db.exec s).2.healthy k := by
  unfold DB.healthy at h
  cases hf : db.faults with
  | nil => simp [DB.exec, DB.healthy, hf]
  | cons f fs =>
    rw [hf] at h
    have hhead : f = none := h f (by simp)
    refine ⟨by simp [DB.exec, hf, hhead], ?_⟩
    intro g hg
    exact h g (by simp only [List.take_succ_cons, List.mem_cons]; right; simpa [DB.exec, hf] using hg)

theorem healthy_mono (db : DB) (k : Nat) (h : db.healthy (k + 1)) : db.healthy k := by
  intro f hf
  exact h f (List.take_subset_take_left _ (Nat.le_succ k) hf)

end gorm

/-! ## Keys -/

namespace gorm

/-- A row inserted with a zero key gets the next value of the sequence, which
is positive: the table never assigns the key zero. -/
theorem Create_key_pos (db : DB) (v v1 : models.Todo) (db1 : DB) (hv : v.ID = 0)
    (h : db.Create v = (none, v1, db1)) : 0 < v1.ID := by
  unfold DB.Create at h
  cases hf : (db.exec .insert).1 with
  | some msg => simp [hf] at h
  | none =>
    simp only [hf, hv, if_true, true_and] at h
    split at h
    · simp at h
    · split at h
      · simp at h
      · simp only [Prod.mk.injEq, true_and] at h
        rw [← h.1]
        show (0 : Int) < ((db.exec .insert).2.seq : Int) + 1
        omega

end gorm

namespace graph

/-- The identifier on a record returned by `CreateTodo` is the text of a
positive key. -/
theorem CreateTodo_key_pos (r : Resolver) (input : model.CreateTodoInput) (t : model.Todo)
    (h : (r.CreateTodo input).1 = .ok t) : ∃ k : Int, 0 < k ∧ t.ID = strconv.Itoa k := by
  unfold Resolver.CreateTodo at h
  simp only at h
  generalize hv : (match input.Description with
    | some d => ({ ID := 0, Title := input.Title, Description := d, Completed := false,
                   CreatedAt := zeroTime, UpdatedAt := zeroTime,
                   DeletedAt := none } : models.Todo)
    | none => { ID := 0, Title := input.Title, Description := "", Completed := false,
                CreatedAt := zeroTime, UpdatedAt := zeroTime, DeletedAt := none }) = v at h
  have hv0 : v.ID = 0 := by
    rw [← hv]
    cases input.Description <;> rfl
  rcases hC : r.DB.Create v with ⟨e, v1, db1⟩
  rw [hC] at h
  cases e with
  | some err => simp at h
  | none =>
    simp only [Except.ok.injEq] at h
    exact ⟨v1.ID, gorm.Create_key_pos r.DB v v1 db1 hv0 hC, by rw [← h]; rfl⟩

end graph

/-! ## Listing and counting -/

namespace graph

theorem Todos_none (r : Resolver) :
    (r.Todos none).1 =
      match (r.DB.exec (.selectAll [])).1 with
      | some msg => .error (.storage (.driver msg))
      | none => .ok (((r.DB.rows.filter gorm.live).insertionSort gorm.createdAtDesc).map toModel) := by
  simp only [Resolver.Todos, gorm.DB.Find, gorm.Query.Order, gorm.Query.start]
  cases h : (r.DB.exec (.selectAll [])).1 <;> simp [h, gorm.verdict]

end graph

/-- C1 (the claim as stated fails): on a table holding one open todo, `Todos`
with the filter `completed = true` returns the empty list, of length 0, while
`TodoCount`, which takes no filter, returns 1. -/
theorem count_ignores_filter :
    (sample.single.Todos (some { Completed := some true, Search := none })).1 = .ok [] ∧
      sample.single.TodoCount.1 = .ok 1 := by
  decide

/-- C1 (amended): `TodoCount` takes no filter and counts every live row, so its
answer is the length of the list `Todos` returns for a filter that restricts
nothing: an absent filter, or one with no completed flag and a search string
that is absent or empty. When the statement fails, both hand back the driver's
error. -/
theorem count_eq_length_of_unrestricted_list (r : graph.Resolver) (f : Option model.TodoFilter)
    (hf : ∀ g, f = some g → g.Completed = none ∧ (g.Search = none ∨ g.Search = some "")) :
    r.TodoCount.1 = (r.Todos f).1.map (fun todos => (todos.length : Int)) := by
  have hlist : (r.Todos f).1 = (r.Todos none).1 := by
    cases f with
    | none => rfl
    | some g =>
      obtain ⟨hc, hs⟩ := hf g rfl
      rcases hs with hs | hs <;> simp [graph.Resolver.Todos, hc, hs]
  rw [hlist, graph.Todos_none]
  simp only [graph.Resolver.TodoCount, gorm.DB.Count, gorm.DB.exec]
  cases h : r.DB.faults.head?.join <;>
    simp [Except.map, List.length_insertionSort]

theorem count_eq_length_of_unrestricted_list_witness :
    sample.three.TodoCount.1 = .ok 2 ∧
      sample.three.TodoCount.1 =
        (sample.three.Todos (some { Completed := none, Search := some "" })).1.map
          (fun todos => (todos.length : Int)) :=
  ⟨by decide,
   count_eq_length_of_unrestricted_list sample.three
     (some { Completed := none, Search := some "" })
     (by intro g hg; cases hg; exact ⟨rfl, Or.inr rfl⟩)⟩

/-! ## Identifier arguments -/

/-- C2 (the claim as stated fails): `strconv.Atoi` accepts `"0"` and `"-5"`, so
`Todo "0"` sends a lookup to the database and answers not-found, and
`DeleteTodo "-5"` sends a delete and answers `false` without an error. -/
theorem zero_and_negative_ids_reach_storage :
    strconv.Atoi "0" = .ok 0 ∧ strconv.Atoi "-5" = .ok (-5) ∧
      (sample.empty.Todo "0").1 = .error .todoNotFound ∧
      (sample.empty.Todo "0").2.DB.journal = [.selectFirst 0] ∧
      (sample.empty.DeleteTodo "-5").1 = .ok false ∧
      (sample.empty.DeleteTodo "-5").2.DB.journal = [.softDelete (-5)] := by
  decide

/-- C2 (amended): for every identifier string that `strconv.Atoi` rejects,
which is every string other than an optionally signed run of decimal digits
whose value fits `int`, each of `Todo`, `UpdateTodo`, `DeleteTodo` and
`ToggleTodo` fails with an invalid-argument error that carries the offending
string, and hands the resolver back as it was: no statement is journalled. -/
theorem rejected_id_fails_before_storage (r : graph.Resolver) (id : String)
    (input : model.UpdateTodoInput) (err : strconv.NumError)
    (hid : strconv.Atoi id = .error err) :
    r.Todo id = (.error (.invalidTodoID err), r) ∧
      r.UpdateTodo id input = (.error (.invalidTodoID err), r) ∧
      r.DeleteTodo id = (.error (.invalidTodoID err), r) ∧
      r.ToggleTodo id = (.error (.invalidTodoID err), r) ∧
      (graph.ResolverError.invalidTodoID err).kind = .InvalidArgument ∧
      err.Num = id := by
  refine ⟨?_, ?_, ?_, ?_, rfl, ?_⟩
  · simp [graph.Resolver.Todo, hid]
  · simp [graph.Resolver.UpdateTodo, hid]
  · simp [graph.Resolver.DeleteTodo, hid]
  · simp [graph.Resolver.ToggleTodo, hid]
  · unfold strconv.Atoi at hid
    cases hp : strconv.parseInt id.toList with
    | ok n =>
      rw [hp] at hid
      cases hid
    | error e =>
      rw [hp] at hid
      cases hid
      rfl

theorem rejected_id_fails_before_storage_witness :
    strconv.Atoi "abc" = .error { Func := "Atoi", Num := "abc", Err := .invalidSyntax } ∧
      sample.three.Todo "abc" =
        (.error (.invalidTodoID { Func := "Atoi", Num := "abc", Err := .invalidSyntax }),
         sample.three) :=
  ⟨by decide,
   (rejected_id_fails_before_storage sample.three "abc"
      { Title := none, Description := none, Completed := none }
      { Func := "Atoi", Num := "abc", Err := .invalidSyntax } (by decide)).1⟩

/-- Strings that `strconv.Atoi` rejects: no digits, a sign alone, a value
beyond `int`, blanks, a decimal point; and strings it accepts. -/
theorem Atoi_samples :
    strconv.Atoi "" = .error { Func := "Atoi", Num := "", Err := .invalidSyntax } ∧
      strconv.Atoi "-" = .error { Func := "Atoi", Num := "-", Err := .invalidSyntax } ∧
      strconv.Atoi "9223372036854775808" =
        .error { Func := "Atoi", Num := "9223372036854775808", Err := .outOfRange } ∧
      strconv.Atoi " 1" = .error { Func := "Atoi", Num := " 1", Err := .invalidSyntax } ∧
      strconv.Atoi "1.0" = .error { Func := "Atoi", Num := "1.0", Err := .invalidSyntax } ∧
      strconv.Atoi "+7" = .ok 7 ∧ strconv.Atoi "007" = .ok 7 ∧
      strconv.Atoi "-9223372036854775808" = .ok (-9223372036854775808) := by
  decide

/-! ## Updates -/

namespace graph

theorem First_of_lookup (db : gorm.DB) (n : Int) (row : models.Todo) (k : Nat)
    (hh : db.healthy (k + 1)) (hrow : db.lookup n = some row) :
    db.First n = (.ok row, (db.exec (.selectFirst n)).2) ∧
      (db.exec (.selectFirst n)).2.healthy k := by
  obtain ⟨h1, h2⟩ := gorm.exec_of_healthy db (.selectFirst n) k hh
  refine ⟨?_, h2⟩
  unfold gorm.DB.First
  have : db.exec (.selectFirst n) = (none, (db.exec (.selectFirst n)).2) := by
    rw [← h1]
  rw [this]
  simp [hrow]

theorem lookup_ID (db : gorm.DB) (n : Int) (row : models.Todo) (hrow : db.lookup n = some row) :
    row.ID = n ∧ gorm.live row = true := by
  have := List.find?_some hrow
  simpa using this

end graph

/-- C3: for an identifier that parses to the key of a live row, with a driver
that runs the lookup, `UpdateTodo` with an input whose title, description and
completed are all absent fails with `"no fields to update"`, an invalid
argument; the only statement it sends is the lookup, none that writes, and the
rows of the table are the same after the call as before. -/
theorem empty_update_rejected_without_write (r : graph.Resolver) (id : String) (n : Int)
    (row : models.Todo) (hid : strconv.Atoi id = .ok n) (hh : r.DB.healthy 1)
    (hrow : r.DB.lookup n = some row) :
    (r.UpdateTodo id { Title := none, Description := none, Completed := none }).1 =
        .error .noFieldsToUpdate ∧
      graph.ResolverError.noFieldsToUpdate.kind = .InvalidArgument ∧
      (r.UpdateTodo id { Title := none, Description := none, Completed := none }).2.DB.rows =
        r.DB.rows ∧
      (r.UpdateTodo id { Title := none, Description := none, Completed := none }).2.DB.journal =
        r.DB.journal ++ [.selectFirst n] ∧
      gorm.Stmt.isWrite (.selectFirst n) = false := by
  obtain ⟨hfirst, -⟩ := graph.First_of_lookup r.DB n row 0 hh hrow
  simp [graph.Resolver.UpdateTodo, hid, hfirst, graph.updatesOf, gorm.Stmt.isWrite,
    graph.ResolverError.kind]

theorem empty_update_rejected_without_write_witness :
    strconv.Atoi "2" = .ok 2 ∧ sample.three.DB.healthy 1 ∧
      sample.three.DB.lookup 2 = some sample.rowB ∧
      (sample.three.UpdateTodo "2" { Title := none, Description := none, Completed := none }).1 =
        .error .noFieldsToUpdate ∧
      (sample.three.UpdateTodo "2"
        { Title := none, Description := none, Completed := none }).2.DB.rows =
        sample.three.DB.rows :=
  have h := empty_update_rejected_without_write sample.three "2" 2 sample.rowB
    (by decide) (by decide) (by decide)
  ⟨by decide, by decide, by decide, h.1, h.2.2.1⟩

namespace graph

theorem foldl_assign_updatesOf (t : models.Todo) (input : model.UpdateTodoInput) :
    (updatesOf input).foldl gorm.assign t =
      { t with Title := input.Title.getD t.Title,
               Description := input.Description.getD t.Description,
               Completed := input.Completed.getD t.Completed } := by
  obtain ⟨title, description, completed⟩ := input
  cases title <;> cases description <;> cases completed <;> simp [updatesOf, gorm.assign]

theorem updatesOf_length (input : model.UpdateTodoInput)
    (hin : input.Title.isSome ∨ input.Description.isSome ∨ input.Completed.isSome) :
    (updatesOf input).length ≠ 0 := by
  obtain ⟨title, description, completed⟩ := input
  cases title <;> cases description <;> cases completed <;> simp [updatesOf] at hin ⊢

/-- Rewriting the live row of key `n` with a function that keeps key and
marker rewrites what a lookup of `n` finds. -/
theorem lookup_map (rows : List models.Todo) (n : Int) (g : models.Todo → models.Todo)
    (hg : ∀ t, t.ID = n → gorm.live t = true → (g t).ID = n ∧ gorm.live (g t) = true)
    (row : models.Todo)
    (h : rows.find? (fun t => decide (t.ID = n) && gorm.live t) = some row) :
    (rows.map (fun t => if t.ID = n ∧ gorm.live t = true then g t else t)).find?
      (fun t => decide (t.ID = n) && gorm.live t) = some (g row) := by
  induction rows with
  | nil => simp at h
  | cons a rows ih =>
    by_cases ha : a.ID = n ∧ gorm.live a = true
    · have hrow : a = row := by simpa [List.find?, ha.1, ha.2] using h
      subst hrow
      obtain ⟨h1, h2⟩ := hg a ha.1 ha.2
      simp [List.find?, ha, h1, h2]
    · have hp : (decide (a.ID = n) && gorm.live a) = false := by
        by_cases h1 : a.ID = n
        · have : gorm.live a = false := by simpa [h1] using ha
          simp [this]
        · simp [h1]
      rw [List.find?_cons, hp] at h
      rw [List.map_cons, if_neg ha, List.find?_cons, hp]
      exact ih h

/-- What `UpdateTodo` does on a live row with a non-zero key, a driver that
runs both statements and an input with a field present. -/
theorem UpdateTodo_ok (r : Resolver) (id : String) (n : Int) (row : models.Todo)
    (input : model.UpdateTodoInput) (hid : strconv.Atoi id = .ok n) (hkey : n ≠ 0)
    (hh : r.DB.healthy 2) (hrow : r.DB.lookup n = some row)
    (hin : input.Title.isSome ∨ input.Description.isSome ∨ input.Completed.isSome) :
    (r.UpdateTodo id input).1 =
        .ok (toModel { row with Title := input.Title.getD row.Title,
                                Description := input.Description.getD row.Description,
                                Completed := input.Completed.getD row.Completed,
                                UpdatedAt := ((r.DB.exec (.selectFirst n)).2.exec (.update n)).2.now }) ∧
      resolvers.mutationResolver.UpdateTodo r id input = r.UpdateTodo id input ∧
      (r.UpdateTodo id input).2.DB.lookup n =
        some { row with Title := input.Title.getD row.Title,
                        Description := input.Description.getD row.Description,
                        Completed := input.Completed.getD row.Completed,
                        UpdatedAt := ((r.DB.exec (.selectFirst n)).2.exec (.update n)).2.now } := by
  obtain ⟨hfirst, hh1⟩ := First_of_lookup r.DB n row 1 hh hrow
  obtain ⟨hID, hlive⟩ := lookup_ID r.DB n row hrow
  have hkey1 : row.ID ≠ 0 := by rw [hID]; exact hkey
  obtain ⟨hex, -⟩ := gorm.exec_of_healthy _ (.update row.ID) 0 hh1
  have hlen := updatesOf_length input hin
  have hex2 : (r.DB.exec (.selectFirst n)).2.exec (.update row.ID) =
      (none, ((r.DB.exec (.selectFirst n)).2.exec (.update row.ID)).2) := by
    rw [← hex]
  have hlook := lookup_map r.DB.rows n
    (fun t => { (updatesOf input).foldl gorm.assign t with UpdatedAt := ((r.DB.exec (.selectFirst n)).2.exec (.update n)).2.now })
    (by intro t h1 h2; simpa [foldl_assign_updatesOf, gorm.live] using And.intro h1 h2)
    row hrow
  have hupd : r.UpdateTodo id input =
      (.ok (toModel { (updatesOf input).foldl gorm.assign row with UpdatedAt := ((r.DB.exec (.selectFirst n)).2.exec (.update n)).2.now }),
       { DB := { ((r.DB.exec (.selectFirst n)).2.exec (.update row.ID)).2 with
                 rows := r.DB.rows.map (fun t =>
                   if t.ID = row.ID ∧ gorm.live t = true then
                     { (updatesOf input).foldl gorm.assign t with UpdatedAt := ((r.DB.exec (.selectFirst n)).2.exec (.update n)).2.now }
                   else t) } }) := by
    simp only [Resolver.UpdateTodo, hid, hfirst, gorm.DB.Updates, hkey1, if_false, hlen]
    rw [hex2]
    rfl
  refine ⟨?_, ?_, ?_⟩
  · rw [hupd, foldl_assign_updatesOf]
  · simp only [Resolver.UpdateTodo, resolvers.mutationResolver.UpdateTodo, hid, hfirst]
  · rw [hupd]
    simp only [gorm.DB.lookup, hID]
    rw [hlook]
    simp only [foldl_assign_updatesOf, hID]

end graph

/-- C4: for a live row with a non-zero key (the keys the table assigns), a
driver that runs the lookup and the update, and an input with at least one
field present, `UpdateTodo` of `graph` and `UpdateTodo` of `graph/resolvers`
both succeed with the same record: each present field has the value given in
the input, each absent field among title, description and completed has the
stored value, and the record is the one a lookup of the key finds after the
call, so no changed field is a copy from before the update. -/
theorem update_response_is_merged_record (r : graph.Resolver) (id : String) (n : Int)
    (row : models.Todo) (input : model.UpdateTodoInput)
    (hid : strconv.Atoi id = .ok n) (hkey : n ≠ 0) (hh : r.DB.healthy 2)
    (hrow : r.DB.lookup n = some row)
    (hin : input.Title.isSome ∨ input.Description.isSome ∨ input.Completed.isSome) :
    ∃ t : model.Todo,
      (r.UpdateTodo id input).1 = .ok t ∧
      (resolvers.mutationResolver.UpdateTodo r id input).1 = .ok t ∧
      t.Title = input.Title.getD row.Title ∧
      t.Description = some (input.Description.getD row.Description) ∧
      t.Completed = input.Completed.getD row.Completed ∧
      t.ID = strconv.Itoa n ∧ t.CreatedAt = row.CreatedAt ∧
      ((r.UpdateTodo id input).2.DB.lookup n).map graph.toModel = some t := by
  obtain ⟨h1, h2, h3⟩ := graph.UpdateTodo_ok r id n row input hid hkey hh hrow hin
  obtain ⟨hID, -⟩ := graph.lookup_ID r.DB n row hrow
  refine ⟨_, h1, by rw [h2, h1], rfl, rfl, rfl, ?_, rfl, by rw [h3]; rfl⟩
  simp [graph.toModel, hID]

theorem update_response_is_merged_record_witness :
    strconv.Atoi "2" = .ok 2 ∧ (2 : Int) ≠ 0 ∧ sample.three.DB.healthy 2 ∧
      sample.three.DB.lookup 2 = some sample.rowB ∧
      ∃ t : model.Todo,
        (sample.three.UpdateTodo "2"
          { Title := some "T", Description := none, Completed := some false }).1 = .ok t ∧
        (resolvers.mutationResolver.UpdateTodo sample.three "2"
          { Title := some "T", Description := none, Completed := some false }).1 = .ok t ∧
        t.Title = "T" ∧ t.Description = some "x" ∧ t.Completed = false ∧
        t.ID = strconv.Itoa 2 ∧ t.CreatedAt = "2024-03-02 09:00:00+00:00" ∧
        ((sample.three.UpdateTodo "2"
          { Title := some "T", Description := none, Completed := some false }).2.DB.lookup 2).map
            graph.toModel = some t :=
  ⟨by decide, by decide, by decide, by decide,
   update_response_is_merged_record sample.three "2" 2 sample.rowB
     { Title := some "T", Description := none, Completed := some false }
     (by decide) (by decide) (by decide) (by decide) (Or.inl rfl)⟩

/-! ## Search strings -/

/-- C6 (the claim as stated fails): a search string of one blank is not treated
as absent. On a table holding one live row with title `"a"`, `Todos` with
search `" "` returns nothing, while `Todos` with search absent returns the
row. -/
theorem blank_search_is_applied :
    (sample.single.Todos (some { Completed := none, Search := some " " })).1 = .ok [] ∧
      (sample.single.Todos (some { Completed := none, Search := none })).1 =
        .ok [graph.toModel sample.rowA] := by
  decide

/-- C6 (amended): for every filter whose search string is empty, `Todos`
applies no search condition: it returns what it returns for the same filter
with search absent, and sends the same statement. -/
theorem empty_search_is_absent (r : graph.Resolver) (completed : Option Bool) :
    r.Todos (some { Completed := completed, Search := some "" }) =
      r.Todos (some { Completed := completed, Search := none }) := by
  simp [graph.Resolver.Todos]

/-! ## Search by `LIKE` -/

namespace sqlite

/-- A pattern of ordinary characters followed by `%` matches the texts that
begin with those characters, ASCII case apart. -/
theorem likeChars_literal_then_any (s : List Char) (hs : ∀ ch ∈ s, ch ≠ '%' ∧ ch ≠ '_') :
    ∀ u : List Char,
      likeChars (s ++ ['%']) u = true ↔ s.map Char.toLower <+: u.map Char.toLower := by
  induction s with
  | nil =>
    intro u
    simp only [List.nil_append, likeChars, if_true, List.any_eq_true, List.map_nil,
      List.nil_prefix, iff_true]
    exact ⟨[], (List.mem_tails _ _).mpr List.nil_suffix, rfl⟩
  | cons c s ih =>
    intro u
    obtain ⟨hc1, hc2⟩ := hs c (List.mem_cons_self c s)
    have ih' := ih (fun ch hch => hs ch (List.mem_cons_of_mem c hch))
    cases u with
    | nil => simp [likeChars, hc1]
    | cons d u =>
      simp only [List.cons_append, likeChars, hc1, if_false, hc2, decide_False, Bool.false_or,
        Bool.and_eq_true, decide_eq_true_eq, List.map_cons, List.cons_prefix_cons]
      exact and_congr Iff.rfl (ih' u)

/-- The pattern `%s%` for ordinary characters `s` matches the texts that
contain `s`, ASCII case apart. -/
theorem likeChars_contains (s t : List Char) (hs : ∀ ch ∈ s, ch ≠ '%' ∧ ch ≠ '_') :
    likeChars ('%' :: (s ++ ['%'])) t = true ↔ s.map Char.toLower <:+: t.map Char.toLower := by
  simp only [likeChars, if_true, List.any_eq_true, List.mem_tails]
  constructor
  · rintro ⟨u, hu, hlike⟩
    exact List.infix_iff_prefix_suffix.mpr
      ⟨u.map Char.toLower, (likeChars_literal_then_any s hs u).mp hlike, hu.map Char.toLower⟩
  · rintro ⟨a, b, hab⟩
    refine ⟨t.drop a.length, List.drop_suffix _ _, (likeChars_literal_then_any s hs _).mpr ?_⟩
    rw [List.map_drop, ← hab]
    simp

theorem cstr_eq_self (cs : List Char) (h : ∀ ch ∈ cs, ch ≠ Char.ofNat 0) : cstr cs = cs := by
  unfold cstr
  rw [List.takeWhile_eq_self_iff]
  intro ch hch
  simpa using h ch hch

/-- The function `LIKE` with the pattern `%s%`, for a string `s` without
wildcard and without NUL whose pattern stays within the length limit: the text
before the first NUL contains `s`, ASCII case apart. -/
theorem like_contains (s text : String)
    (hs : ∀ ch ∈ s.toList, ch ≠ '%' ∧ ch ≠ '_' ∧ ch ≠ Char.ofNat 0)
    (hlen : s.utf8ByteSize + 2 ≤ maxLikePatternLength) :
    like ("%" ++ s ++ "%") text =
      some (decide (s.toList.map Char.toLower <:+: (cstr text.toList).map Char.toLower)) := by
  have happ : ∀ a b : String, (a ++ b).utf8ByteSize = a.utf8ByteSize + b.utf8ByteSize := by
    intro a b
    simp [String.utf8ByteSize, String.append]
  have hsize : ("%" ++ s ++ "%").utf8ByteSize = s.utf8ByteSize + 2 := by
    have h1 : ("%" : String).utf8ByteSize = 1 := by decide
    rw [happ, happ, h1]
    omega
  have hpat : cstr ("%" ++ s ++ "%").toList = '%' :: (s.toList ++ ['%']) := by
    have hl : ("%" ++ s ++ "%").toList = '%' :: (s.toList ++ ['%']) := by
      simp [String.toList]
    rw [hl]
    apply cstr_eq_self
    intro ch hch
    simp only [List.mem_cons, List.mem_append, List.mem_singleton] at hch
    rcases hch with h | h | h
    · rw [h]; decide
    · exact (hs ch h).2.2
    · rcases h with h | h
      · rw [h]; decide
      · simp at h
  unfold like
  rw [if_neg (by rw [hsize]; omega), hpat]
  congr 1
  rw [Bool.eq_iff_iff, decide_eq_true_eq]
  exact likeChars_contains s.toList _ (fun ch hch => ⟨(hs ch hch).1, (hs ch hch).2.1⟩)

/-- The function `LIKE` with the pattern `%s%` refuses every string `s` of
49999 bytes or more. -/
theorem like_too_long (s text : String) (hlen : 49999 ≤ s.utf8ByteSize) :
    like ("%" ++ s ++ "%") text = none := by
  have happ : ∀ a b : String, (a ++ b).utf8ByteSize = a.utf8ByteSize + b.utf8ByteSize := by
    intro a b
    simp [String.utf8ByteSize, String.append]
  have h1 : ("%" : String).utf8ByteSize = 1 := by decide
  unfold like
  rw [if_pos]
  rw [happ, happ, h1]
  simp only [maxLikePatternLength]
  omega

end sqlite

/-- C5 (the claim as stated fails): the search string is a `LIKE` pattern, not
a literal. With the filter `completed = false`, search `"_"`, the row with
title `"a"` and empty description is returned although neither contains an
underscore; with search `"%"` it is returned although neither contains a
percent sign. And `LIKE` reads a text up to its first NUL only: with search
`"b"`, the row whose title is `a`, NUL, `b` is not returned although the title
contains `b`. -/
theorem search_wildcards_not_literal :
    (sample.single.Todos (some { Completed := some false, Search := some "_" })).1 =
        .ok [graph.toModel sample.rowA] ∧
      (sample.single.Todos (some { Completed := some false, Search := some "%" })).1 =
        .ok [graph.toModel sample.rowA] ∧
      ¬ ("_".toList <:+: sample.rowA.Title.toList) ∧
      ¬ ("_".toList <:+: sample.rowA.Description.toList) ∧
      ¬ ("%".toList <:+: sample.rowA.Title.toList) ∧
      ¬ ("%".toList <:+: sample.rowA.Description.toList) ∧
      (sample.withNul.Todos (some { Completed := some false, Search := some "b" })).1 =
        .ok [] ∧
      "b".toList <:+: sample.rowN.Title.toList := by
  decide

/-- C5 (amended): for a filter carrying a completed flag `c` and a non-empty
search string `s` of at most 49998 bytes in which none of `%`, `_` and NUL
occurs, with a driver that runs the query, `Todos` returns exactly the live
rows whose completed flag equals `c` and whose title or description, each read
up to its first NUL, contains `s` as a substring, ASCII letters compared
without regard to case (the two text matches are grouped inside the
conjunction): the list returned is a permutation of the records of those
rows. In a search string, `%` and `_` are the wildcards of `LIKE`. -/
theorem list_completed_and_search (r : graph.Resolver) (c : Bool) (s : String)
    (hne : s ≠ "") (hs : ∀ ch ∈ s.toList, ch ≠ '%' ∧ ch ≠ '_' ∧ ch ≠ Char.ofNat 0)
    (hlen : s.utf8ByteSize ≤ 49998) (hh : r.DB.healthy 1) :
    ∃ todos : List model.Todo,
      (r.Todos (some { Completed := some c, Search := some s })).1 = .ok todos ∧
      todos.Perm ((r.DB.rows.filter (fun t =>
        gorm.live t && (t.Completed == c &&
          (decide (s.toList.map Char.toLower <:+:
              (sqlite.cstr t.Title.toList).map Char.toLower) ||
           decide (s.toList.map Char.toLower <:+:
              (sqlite.cstr t.Description.toList).map Char.toLower))))).map graph.toModel) := by
  obtain ⟨hex, -⟩ := gorm.exec_of_healthy r.DB
    (.selectAll [.completedEq c, .titleLikeOrDescriptionLike ("%" ++ s ++ "%") ("%" ++ s ++ "%")])
    0 hh
  have hlen' : s.utf8ByteSize + 2 ≤ sqlite.maxLikePatternLength := by
    simp only [sqlite.maxLikePatternLength]
    omega
  have hverdict : ∀ t : models.Todo,
      gorm.verdict [gorm.Cond.completedEq c,
          gorm.Cond.titleLikeOrDescriptionLike ("%" ++ s ++ "%") ("%" ++ s ++ "%")] t =
        some (t.Completed == c &&
          (decide (s.toList.map Char.toLower <:+:
              (sqlite.cstr t.Title.toList).map Char.toLower) ||
           decide (s.toList.map Char.toLower <:+:
              (sqlite.cstr t.Description.toList).map Char.toLower))) := by
    intro t
    simp only [gorm.verdict, gorm.Cond.holds, sqlite.like_contains s _ hs hlen']
    cases t.Completed == c <;>
      cases decide (s.toList.map Char.toLower <:+:
        (sqlite.cstr t.Title.toList).map Char.toLower) <;>
      cases decide (s.toList.map Char.toLower <:+:
        (sqlite.cstr t.Description.toList).map Char.toLower) <;> rfl
  have hex2 : r.DB.exec (.selectAll [.completedEq c,
      .titleLikeOrDescriptionLike ("%" ++ s ++ "%") ("%" ++ s ++ "%")]) =
      (none, (r.DB.exec (.selectAll [.completedEq c,
        .titleLikeOrDescriptionLike ("%" ++ s ++ "%") ("%" ++ s ++ "%")])).2) := by
    rw [← hex]
  have hres : (r.Todos (some { Completed := some c, Search := some s })).1 =
      .ok ((((r.DB.rows.filter gorm.live).filter (fun t =>
        (t.Completed == c &&
          (decide (s.toList.map Char.toLower <:+:
              (sqlite.cstr t.Title.toList).map Char.toLower) ||
           decide (s.toList.map Char.toLower <:+:
              (sqlite.cstr t.Description.toList).map Char.toLower))))).insertionSort
        gorm.createdAtDesc).map graph.toModel) := by
    simp only [graph.Resolver.Todos, hne, ne_eq, not_false_eq_true, if_true, gorm.Query.Where,
      gorm.Query.Order, gorm.Query.start, gorm.DB.Find, List.nil_append, List.cons_append]
    rw [hex2]
    simp [hverdict]
  refine ⟨_, hres, ?_⟩
  · refine (List.Perm.map _ (List.perm_insertionSort _ _)).trans ?_
    rw [List.filter_filter]
    refine List.Perm.of_eq ?_
    congr 2
    funext t
    cases gorm.live t <;> simp

theorem list_completed_and_search_witness :
    "foo" ≠ "" ∧ (∀ ch ∈ "foo".toList, ch ≠ '%' ∧ ch ≠ '_' ∧ ch ≠ Char.ofNat 0) ∧
      "foo".utf8ByteSize ≤ 49998 ∧ sample.three.DB.healthy 1 ∧
      (sample.three.Todos (some { Completed := some true, Search := some "foo" })).1 =
        .ok [graph.toModel sample.rowB] ∧
      ∃ todos : List model.Todo,
        (sample.three.Todos (some { Completed := some true, Search := some "foo" })).1 =
          .ok todos ∧
        todos.Perm ((sample.three.DB.rows.filter (fun t =>
          gorm.live t && (t.Completed == true &&
            (decide ("foo".toList.map Char.toLower <:+:
                (sqlite.cstr t.Title.toList).map Char.toLower) ||
             decide ("foo".toList.map Char.toLower <:+:
                (sqlite.cstr t.Description.toList).map Char.toLower))))).map
          graph.toModel) :=
  ⟨by decide, by decide, by decide, by decide, by decide,
   list_completed_and_search sample.three true "foo" (by decide) (by decide) (by decide)
     (by decide)⟩

/-! ## Toggle -/

namespace graph

/-- What `ToggleTodo` does on a live row with a non-zero key and a driver that
runs both statements. -/
theorem ToggleTodo_ok (r : Resolver) (id : String) (n : Int) (row : models.Todo) (k : Nat)
    (hid : strconv.Atoi id = .ok n) (hkey : n ≠ 0) (hh : r.DB.healthy (k + 2))
    (hrow : r.DB.lookup n = some row) :
    (r.ToggleTodo id).1 =
        .ok (toModel { row with Completed := !row.Completed, UpdatedAt := ((r.DB.exec (.selectFirst n)).2.exec (.update n)).2.now }) ∧
      (r.ToggleTodo id).2.DB.lookup n =
        some { row with Completed := !row.Completed, UpdatedAt := ((r.DB.exec (.selectFirst n)).2.exec (.update n)).2.now } ∧
      (r.ToggleTodo id).2.DB.healthy k := by
  obtain ⟨hfirst, hh1⟩ := First_of_lookup r.DB n row (k + 1) hh hrow
  obtain ⟨hID, hlive⟩ := lookup_ID r.DB n row hrow
  have hkey1 : row.ID ≠ 0 := by rw [hID]; exact hkey
  obtain ⟨hex, hh2⟩ := gorm.exec_of_healthy _ (.update row.ID) k hh1
  have hex2 : (r.DB.exec (.selectFirst n)).2.exec (.update row.ID) =
      (none, ((r.DB.exec (.selectFirst n)).2.exec (.update row.ID)).2) := by
    rw [← hex]
  have hlook := lookup_map r.DB.rows n
    (fun _ => { row with Completed := !row.Completed, UpdatedAt := ((r.DB.exec (.selectFirst n)).2.exec (.update n)).2.now })
    (by intro t _ _; exact ⟨hID, hlive⟩) row hrow
  have htog : r.ToggleTodo id =
      (.ok (toModel { row with Completed := !row.Completed, UpdatedAt := ((r.DB.exec (.selectFirst n)).2.exec (.update n)).2.now }),
       { DB := { ((r.DB.exec (.selectFirst n)).2.exec (.update row.ID)).2 with
                 rows := r.DB.rows.map (fun t =>
                   if t.ID = row.ID ∧ gorm.live t = true then
                     { row with Completed := !row.Completed, UpdatedAt := ((r.DB.exec (.selectFirst n)).2.exec (.update n)).2.now }
                   else t) } }) := by
    simp only [Resolver.ToggleTodo, hid, hfirst, gorm.DB.Save, hkey1, if_false]
    rw [hex2]
    rfl
  refine ⟨?_, ?_, ?_⟩
  · rw [htog]
  · rw [htog]
    simp only [gorm.DB.lookup]
    simpa only [hID] using hlook
  · rw [htog]
    exact hh2

end graph

/-- C9: for a live row with a non-zero key (the keys the table assigns) and a
driver that runs the statements, one `ToggleTodo` returns the row's record with
the completed flag negated, and a second `ToggleTodo` right after it returns
the record with the original flag; in both, identifier, title, description and
created timestamp are the stored ones, the updated timestamp alone being
new. -/
theorem toggle_negates_and_twice_restores (r : graph.Resolver) (id : String) (n : Int)
    (row : models.Todo) (hid : strconv.Atoi id = .ok n) (hkey : n ≠ 0)
    (hh : r.DB.healthy 2) (hrow : r.DB.lookup n = some row) :
    ∃ u1 : Time,
      (r.ToggleTodo id).1 =
        .ok { graph.toModel row with Completed := !row.Completed, UpdatedAt := u1 } ∧
      ((r.ToggleTodo id).2.DB.healthy 2 →
        ∃ u2 : Time,
          ((r.ToggleTodo id).2.ToggleTodo id).1 =
            .ok { graph.toModel row with Completed := row.Completed, UpdatedAt := u2 }) := by
  obtain ⟨h1, h2, -⟩ := graph.ToggleTodo_ok r id n row 0 hid hkey hh hrow
  refine ⟨((r.DB.exec (.selectFirst n)).2.exec (.update n)).2.now, h1, ?_⟩
  intro hh'
  obtain ⟨h3, -, -⟩ := graph.ToggleTodo_ok (r.ToggleTodo id).2 id n _ 0 hid hkey hh' h2
  refine ⟨(((r.ToggleTodo id).2.DB.exec (.selectFirst n)).2.exec (.update n)).2.now, ?_⟩
  rw [h3]
  simp [graph.toModel]

theorem toggle_negates_and_twice_restores_witness :
    strconv.Atoi "2" = .ok 2 ∧ (2 : Int) ≠ 0 ∧ sample.three.DB.healthy 2 ∧
      sample.three.DB.lookup 2 = some sample.rowB ∧
      (sample.three.ToggleTodo "2").2.DB.healthy 2 ∧
      (sample.three.ToggleTodo "2").1 =
        .ok { graph.toModel sample.rowB with
              Completed := false, UpdatedAt := "2024-03-05 12:00:02+00:00" } ∧
      ((sample.three.ToggleTodo "2").2.ToggleTodo "2").1 =
        .ok { graph.toModel sample.rowB with
              Completed := true, UpdatedAt := "2024-03-05 12:00:04+00:00" } ∧
      ∃ u1 : Time,
        (sample.three.ToggleTodo "2").1 =
          .ok { graph.toModel sample.rowB with
                Completed := !sample.rowB.Completed, UpdatedAt := u1 } ∧
        ((sample.three.ToggleTodo "2").2.DB.healthy 2 →
          ∃ u2 : Time,
            ((sample.three.ToggleTodo "2").2.ToggleTodo "2").1 =
              .ok { graph.toModel sample.rowB with
                    Completed := sample.rowB.Completed, UpdatedAt := u2 }) :=
  ⟨by decide, by decide, by decide, by decide, by decide, by decide, by decide,
   toggle_negates_and_twice_restores sample.three "2" 2 sample.rowB
     (by decide) (by decide) (by decide) (by decide)⟩

/-! ## Delete -/

namespace graph

theorem filter_length_pos_iff_find (rows : List models.Todo) (p : models.Todo → Bool) :
    decide (((rows.filter p).length : Int) > 0) = (rows.find? p).isSome := by
  induction rows with
  | nil => simp
  | cons a rows ih =>
    by_cases ha : p a = true
    · simp [List.filter, List.find?, ha]
    · have ha' : p a = false := by simpa using ha
      simpa [List.filter, List.find?, ha'] using ih

theorem lookup_after_soft_delete (rows : List models.Todo) (n : Int) (now : Time) :
    (rows.map (fun t =>
        if t.ID = n ∧ gorm.live t = true then { t with DeletedAt := some now } else t)).find?
      (fun t => decide (t.ID = n) && gorm.live t) = none := by
  rw [List.find?_eq_none]
  intro x hx
  obtain ⟨t, -, rfl⟩ := List.mem_map.mp hx
  by_cases ht : t.ID = n ∧ gorm.live t = true
  · rw [if_pos ht]
    simp [gorm.live]
  · rw [if_neg ht]
    simpa using ht

/-- What `DeleteTodo` does with a driver that runs the statement. -/
theorem DeleteTodo_ok (r : Resolver) (id : String) (n : Int)
    (hid : strconv.Atoi id = .ok n) (hh : r.DB.healthy 1) :
    (r.DeleteTodo id).1 = .ok (r.DB.lookup n).isSome ∧
      (r.DeleteTodo id).2.DB.lookup n = none ∧
      (r.DeleteTodo id).2.DB.faults = r.DB.faults.tail := by
  obtain ⟨hex, -⟩ := gorm.exec_of_healthy r.DB (.softDelete n) 0 hh
  have hex2 : r.DB.exec (.softDelete n) = (none, (r.DB.exec (.softDelete n)).2) := by
    rw [← hex]
  have hdel : r.DeleteTodo id =
      (.ok (decide (((r.DB.rows.filter
          (fun t => decide (t.ID = n) && gorm.live t)).length : Int) > 0)),
       { DB := { (r.DB.exec (.softDelete n)).2 with
                 rows := r.DB.rows.map (fun t =>
                   if t.ID = n ∧ gorm.live t = true then
                     { t with DeletedAt := some (r.DB.exec (.softDelete n)).2.now }
                   else t) } }) := by
    simp only [Resolver.DeleteTodo, hid, gorm.DB.Delete]
    rw [hex2]
    rfl
  refine ⟨?_, ?_, ?_⟩
  · rw [hdel, filter_length_pos_iff_find]
    rfl
  · rw [hdel]
    exact lookup_after_soft_delete r.DB.rows n (r.DB.exec (.softDelete n)).2.now
  · rw [hdel]
    rfl

theorem DeleteTodo_kind (r : Resolver) (id : String) (e : ResolverError)
    (h : (r.DeleteTodo id).1 = .error e) : e.kind ≠ .NotFound := by
  unfold Resolver.DeleteTodo at h
  cases hid : strconv.Atoi id with
  | error err =>
    rw [hid] at h
    cases h
    simp [ResolverError.kind]
  | ok n =>
    rw [hid] at h
    simp only [gorm.DB.Delete] at h
    cases hf : (r.DB.exec (.softDelete n)).1 with
    | none =>
      rw [hf] at h
      cases h
    | some msg =>
      rw [hf] at h
      cases h
      simp [ResolverError.kind]

theorem Todo_of_lookup_none (r : Resolver) (id : String) (n : Int)
    (hid : strconv.Atoi id = .ok n) (hh : r.DB.healthy 1) (hrow : r.DB.lookup n = none) :
    (r.Todo id).1 = .error .todoNotFound := by
  obtain ⟨hex, -⟩ := gorm.exec_of_healthy r.DB (.selectFirst n) 0 hh
  have hex2 : r.DB.exec (.selectFirst n) = (none, (r.DB.exec (.selectFirst n)).2) := by
    rw [← hex]
  simp only [Resolver.Todo, hid, gorm.DB.First]
  rw [hex2]
  simp [hrow]

end graph

/-- C8: `DeleteTodo` never fails with not-found. For an identifier that parses
and a driver that runs the delete, it returns `true` exactly when a live row
with that key existed before the call and `false`, without an error, when
there was none (the key was never assigned, or its row was already deleted);
after the call no live row has the key, and `Todo` on the identifier, when the
driver runs its lookup, fails with not-found. -/
theorem delete_reports_removal (r : graph.Resolver) (id : String) :
    (∀ e, (r.DeleteTodo id).1 = .error e → e.kind ≠ .NotFound) ∧
      ∀ n, strconv.Atoi id = .ok n → r.DB.healthy 1 →
        (r.DeleteTodo id).1 = .ok (r.DB.lookup n).isSome ∧
        (r.DeleteTodo id).2.DB.lookup n = none ∧
        ((r.DeleteTodo id).2.DB.healthy 1 →
          ((r.DeleteTodo id).2.Todo id).1 = .error .todoNotFound ∧
          graph.ResolverError.todoNotFound.kind = .NotFound) := by
  refine ⟨fun e h => graph.DeleteTodo_kind r id e h, ?_⟩
  intro n hid hh
  obtain ⟨h1, h2, -⟩ := graph.DeleteTodo_ok r id n hid hh
  exact ⟨h1, h2, fun hh' => ⟨graph.Todo_of_lookup_none _ id n hid hh' h2, rfl⟩⟩

theorem delete_reports_removal_witness :
    strconv.Atoi "2" = .ok 2 ∧ sample.three.DB.healthy 1 ∧
      (sample.three.DeleteTodo "2").2.DB.healthy 1 ∧
      sample.three.DB.lookup 2 = some sample.rowB ∧
      (sample.three.DeleteTodo "2").1 = .ok true ∧
      ((sample.three.DeleteTodo "2").2.Todo "2").1 = .error .todoNotFound ∧
      ((sample.three.DeleteTodo "2").2.DeleteTodo "2").1 = .ok false ∧
      (sample.three.DeleteTodo "3").1 = .ok false ∧
      (sample.three.DeleteTodo "9").1 = .ok false :=
  have h := (delete_reports_removal sample.three "2").2 2 (by decide) (by decide)
  ⟨by decide, by decide, by decide, by decide, h.1, (h.2.2 (by decide)).1,
   by decide, by decide, by decide⟩

/-! ## Failed lookups -/

/-- The resolvers of `graph/todo.resolvers.go` tell the two failures of a
lookup apart: for an identifier that parses, `Todo`, `UpdateTodo` and
`ToggleTodo` answer not-found exactly when the lookup reports
`ErrRecordNotFound`, and hand any other error of the lookup back unchanged. -/
theorem graph_lookup_errors_told_apart (r : graph.Resolver) (id : String) (n : Int)
    (input : model.UpdateTodoInput) (hid : strconv.Atoi id = .ok n) :
    (((r.Todo id).1 = .error .todoNotFound ↔ (r.DB.First n).1 = .error .ErrRecordNotFound) ∧
      ((r.UpdateTodo id input).1 = .error .todoNotFound ↔
        (r.DB.First n).1 = .error .ErrRecordNotFound) ∧
      ((r.ToggleTodo id).1 = .error .todoNotFound ↔
        (r.DB.First n).1 = .error .ErrRecordNotFound)) ∧
      ∀ e, (r.DB.First n).1 = .error e → e ≠ .ErrRecordNotFound →
        (r.Todo id).1 = .error (.storage e) ∧
        (r.UpdateTodo id input).1 = .error (.storage e) ∧
        (r.ToggleTodo id).1 = .error (.storage e) := by
  simp only [graph.Resolver.Todo, graph.Resolver.UpdateTodo, graph.Resolver.ToggleTodo, hid]
  rcases hF : r.DB.First n with ⟨res, db⟩
  cases res with
  | error e =>
    by_cases he : e = .ErrRecordNotFound
    · simp [he]
    · simp [he]
  | ok row =>
    refine ⟨⟨by simp, ?_, ?_⟩, by simp⟩
    · by_cases hl : (graph.updatesOf input).length = 0
      · simp [hl]
      · simp only [hl, if_false]
        rcases hU : db.Updates row (graph.updatesOf input) with ⟨e, v, db2⟩
        cases e <;> simp
    · rcases hS : db.Save { row with Completed := !row.Completed } with ⟨e, v, db2⟩
      cases e <;> simp [hS]

/-- C7 (the code departs from the claim): the table holds a live row with key 1
and the driver fails the lookup with `"database is locked"`. `UpdateTodo` and
`ToggleTodo` of `graph/resolvers` answer `"todo not found"`, of kind not-found,
although the lookup did not report a missing record; `UpdateTodo` and
`ToggleTodo` of `graph` hand the driver's error back. -/
theorem resolvers_lookup_failure_reported_as_not_found :
    sample.locked.DB.lookup 1 = some sample.rowA ∧
      (sample.locked.DB.First 1).1 = .error (.driver "database is locked") ∧
      (resolvers.mutationResolver.UpdateTodo sample.locked "1"
        { Title := some "x", Description := none, Completed := none }).1 =
          .error .todoNotFound ∧
      (resolvers.mutationResolver.ToggleTodo sample.locked "1").1 = .error .todoNotFound ∧
      graph.ResolverError.todoNotFound.kind = .NotFound ∧
      (sample.locked.UpdateTodo "1"
        { Title := some "x", Description := none, Completed := none }).1 =
          .error (.storage (.driver "database is locked")) ∧
      (sample.locked.ToggleTodo "1").1 = .error (.storage (.driver "database is locked")) := by
  decide
